import Mathlib

/-!
Verification development for the wasmer-jni native bridge
(src/rust/src/instance.rs).

The Rust glue code is shallowly embedded: JNI `jint` and `jlong` values
are modelled as `Int` (with explicit two-complement wrapping where the
Rust release-mode arithmetic wraps), `u64`/`usize` values as `Nat` with
explicit reduction modulo 2 ^ 64, linear memory as a `List Nat` of bytes,
and fallible operations as `Except String`.  Operations that touch the
instance state are state transformers returning the result together with
the memory afterwards.
-/

namespace WasmerJni

/-- Two-complement wrapping of an integer into the i32 range, as Rust
release-mode `i32` addition and `u64 as i32` truncation behave. -/
def wrap32 (x : Int) : Int := (x + 2 ^ 31) % 2 ^ 32 - 2 ^ 31

/-- Two-complement wrapping of an integer into the i64 range
(`u64 as i64` reinterpretation). -/
def wrap64 (x : Int) : Int := (x + 2 ^ 63) % 2 ^ 64 - 2 ^ 63

/-- Rust `i32 as u64` (sign extension then reinterpretation); for `x` in
the i32 range this is `x` modulo 2 ^ 64. -/
def i32toU64 (x : Int) : Nat := (x % 2 ^ 64).toNat

/-- Rust `u64 as i32` truncating cast. -/
def toI32 (n : Nat) : Int := wrap32 n

/-- Overwrite of the byte range [off, off + buf.length) of d with buf,
the effect of a successful in-bounds wasmer MemoryView write. -/
def writeBytes (d : List Nat) (off : Nat) (buf : List Nat) : List Nat :=
  d.take off ++ buf ++ d.drop (off + buf.length)

/-- Embedding of get_memory (src/rust/src/instance.rs, lines 20-38).
The instance is represented by its optional exported memory "memory"
(`none` when the export is missing).  The bounds check is the source
check `(off + len) > view.data_size() as i32 || off < 0 || len < 0`
with i32 arithmetic wrapping as in a Rust release build; the
`copy_range_to_vec(off..end).expect("Memory Access Error")` call is a
read that panics when the range is out of bounds, modelled as the
distinguished error "panic: Memory Access Error".  The second component
is the linear memory after the call. -/
def get_memory (mem : Option (List Nat)) (off len : Int) :
    Except String (List Nat) × Option (List Nat) :=
  match mem with
  | none => (Except.error "missing export: memory", none)
  | some d =>
    if wrap32 (off + len) > toI32 d.length ∨ off < 0 ∨ len < 0 then
      (Except.error "memory access overflow", some d)
    else
      let s : Nat := i32toU64 off
      let e : Nat := (i32toU64 off + i32toU64 len) % 2 ^ 64
      if e ≤ d.length then
        (Except.ok ((d.drop s).take (e - s)), some d)
      else
        (Except.error "panic: Memory Access Error", some d)

/-- Embedding of set_memory (src/rust/src/instance.rs, lines 40-56).
The source check is `(off as usize + bytes.len()) as u64 > view.data_size()`,
where `off as usize` sign-extends and the usize addition wraps modulo
2 ^ 64 in a release build; when it passes, `view.write(off as u64, &bytes)`
performs its own checked bounds test `off as u64 + bytes.len() <= size`
and either copies the whole buffer or fails with a formatted
"Got memory access error: ..." message, leaving memory untouched. -/
def set_memory (mem : Option (List Nat)) (off : Int) (buf : List Nat) :
    Except String Unit × Option (List Nat) :=
  match mem with
  | none => (Except.error "missing export: memory", none)
  | some d =>
    if (i32toU64 off + buf.length) % 2 ^ 64 > d.length then
      (Except.error "memory access overflow", some d)
    else
      if i32toU64 off + buf.length ≤ d.length then
        (Except.ok (), some (writeBytes d (i32toU64 off) buf))
      else
        (Except.error "Got memory access error: out of bounds", some d)

/-- The wasmer value types occurring in function signatures
(wasmer::Type). -/
inductive WasmType
  | I32
  | I64
  | F32
  | F64
  | V128
  | ExternRef
deriving DecidableEq

/-- Runtime values (wasmer::Value).  Float values are carried as their
IEEE bit patterns, since the bridge only ever reinterprets them as
64-bit integers and never computes with them. -/
inductive Value
  | I32 (x : Int)
  | I64 (x : Int)
  | F32 (bits : Nat)
  | F64 (bits : Nat)
  | V128 (x : Nat)
  | ExternRef
deriving DecidableEq

/-- Modelled from the spec: the conversion of one 64-bit wire integer
into a native value of the declared type, performed by the ToVmType
`convert` implementation of crate::utils, which is not under src/.
Per the spec, 64-bit integers are "converted to/from native value types
(integers, floats) per a target function's declared signature";
reference types and V128 have no 64-bit wire representation. -/
def convertOne (t : WasmType) (x : Int) : Option Value :=
  match t with
  | WasmType.I32 => some (Value.I32 (wrap32 x))
  | WasmType.I64 => some (Value.I64 x)
  | WasmType.F32 => some (Value.F32 ((x % 2 ^ 32).toNat))
  | WasmType.F64 => some (Value.F64 ((x % 2 ^ 64).toNat))
  | WasmType.V128 => none
  | WasmType.ExternRef => none

/-- Modelled from the spec: the ToVmType `convert` of a whole declared
signature (crate::utils, not under src/), turning the 64-bit wire vector
into the native values expected by the target function. -/
def convertVals : List WasmType → List Int → Except String (List Value)
  | [], [] => Except.ok []
  | t :: ts, x :: xs =>
    match convertOne t x, convertVals ts xs with
    | some v, Except.ok vs => Except.ok (v :: vs)
    | none, _ => Except.error "unsupported param type"
    | _, Except.error e => Except.error e
  | _, _ => Except.error "invalid params length"

/-- Modelled from the spec: the conversion of one native value into its
64-bit wire integer (the as_i64_vec macro of the crate root, not under
src/).  Integers and floats are representable (floats by their bit
pattern); V128 and reference values are not. -/
def valueToI64 : Value → Option Int
  | Value.I32 x => some x
  | Value.I64 x => some x
  | Value.F32 bits => some bits
  | Value.F64 bits => some (wrap64 bits)
  | Value.V128 _ => none
  | Value.ExternRef => none

/-- Modelled from the spec: the as_i64_vec macro applied to a value
vector; `none` when some value has no 64-bit representation (the caller
chooses the error to raise in that case). -/
def as_i64_vec : List Value → Option (List Int)
  | [] => some []
  | v :: vs =>
    match valueToI64 v, as_i64_vec vs with
    | some x, some xs => some (x :: xs)
    | _, _ => none

/-- An exported WebAssembly function: its declared parameter and result
types together with its call behaviour (a RuntimeError is an error
string). -/
structure WasmFn where
  params : List WasmType
  results : List WasmType
  body : List Value → Except String (List Value)

/-- A live instance as the bridge sees it: the optional exported memory
"memory" and the named exported functions. -/
structure WInstance where
  memory : Option (List Nat)
  funcs : List (String × WasmFn)

/-- Embedding of execute (src/rust/src/instance.rs, lines 96-122):
look up the exported function by name, reject when the number of 64-bit
arguments differs from the parameter arity, convert the arguments to
native values per the declared signature, call the function, and
convert the results back to 64-bit integers, with
"unsupported return type" when some result value has no such
representation. -/
def execute (ins : WInstance) (name : String) (args : List Int) :
    Except String (List Int) :=
  match ins.funcs.lookup name with
  | none => Except.error ("missing export: " ++ name)
  | some f =>
    if f.params.length ≠ args.length then
      Except.error "invalid params length"
    else
      match convertVals f.params args with
      | Except.error e => Except.error e
      | Except.ok vals =>
        match f.body vals with
        | Except.error re =>
          Except.error ("Got unexpected runtime error: " ++ re)
        | Except.ok results =>
          match as_i64_vec results with
          | none => Except.error "unsupported return type"
          | some out => Except.ok out

/-- The managed-side value returned by the static dispatch call
(a JValue): either an object holding a jlong array (`none` for a null
object, on which jlong_array_to_vec fails) or any non-object value. -/
inductive JVal
  | object (arr : Option (List Int))
  | other

/-- Embedding of the closure built by create_host
(src/rust/src/instance.rs, lines 71-94): on every invocation the
WebAssembly arguments are converted to 64-bit integers (failing with
"unexpected param type"), the managed static dispatch method
com/archeros/wasmer/Natives.onHostFunction is called with the instance
id, the host function id and that vector (here an oracle parameter),
a non-object managed return value is rejected with
"unexpected return type", and an object return value is read back as a
jlong array and converted to the declared result types. -/
def host_call (retTypes : List WasmType)
    (onHostFunction : Int → Int → List Int → Except String JVal)
    (insId hostId : Int) (args : List Value) :
    Except String (List Value) :=
  match as_i64_vec args with
  | none => Except.error "unexpected param type"
  | some v =>
    match onHostFunction insId hostId v with
    | Except.error e => Except.error e
    | Except.ok (JVal.object none) => Except.error "null pointer"
    | Except.ok (JVal.object (some rv)) => convertVals retTypes rv
    | Except.ok JVal.other => Except.error "unexpected return type"

/-- Modelled from the spec: close (src/rust/src/instance.rs, lines
58-68) turns the descriptor back into an Rp pointer (crate::rp, not
under src/), returns Ok immediately when that pointer is null, and
otherwise drops the instance.  Per the spec an instance handle is
"stored in process-wide state ... explicitly invalidated and removed on
close", so the process-wide state is a table from handles to optional
instances, a handle with no live instance is the null pointer, and
dropping removes the entry. -/
def closeIns (st : Nat → Option WInstance) (h : Nat) :
    Except String Unit × (Nat → Option WInstance) :=
  match st h with
  | none => (Except.ok (), st)
  | some _ => (Except.ok (), fun k => if k = h then none else st k)

/-- Concrete instance exporting one function "f" of parameter arity 1,
used to exercise the execute theorems. -/
def arityFn : WasmFn :=
  ⟨[WasmType.I32], [], fun _ => Except.ok []⟩

/-- Instance holding arityFn under the export name "f". -/
def arityIns : WInstance := ⟨none, [("f", arityFn)]⟩

/-- Concrete export returning a V128 value, which has no 64-bit wire
representation. -/
def v128Fn : WasmFn :=
  ⟨[], [WasmType.V128], fun _ => Except.ok [Value.V128 0]⟩

/-- Instance holding v128Fn under the export name "g". -/
def v128Ins : WInstance := ⟨none, [("g", v128Fn)]⟩

/-- Unfolding of set_memory on a present memory export. -/
theorem set_memory_some (d : List Nat) (off : Int) (buf : List Nat) :
    set_memory (some d) off buf =
      if (i32toU64 off + buf.length) % 2 ^ 64 > d.length then
        (Except.error "memory access overflow", some d)
      else if i32toU64 off + buf.length ≤ d.length then
        (Except.ok (), some (writeBytes d (i32toU64 off) buf))
      else
        (Except.error "Got memory access error: out of bounds", some d) :=
  rfl

/-- Length preservation of an in-bounds byte-range overwrite. -/
theorem writeBytes_length (d buf : List Nat) (o : Nat)
    (ho : o + buf.length ≤ d.length) :
    (writeBytes d o buf).length = d.length := by
  simp only [writeBytes, List.length_append, List.length_take,
    List.length_drop]
  omega

/-- Inside the overwritten range the new memory holds the buffer. -/
theorem writeBytes_getElem_mid (d buf : List Nat) (o j : Nat)
    (hj : j < buf.length) (ho : o + buf.length ≤ d.length) :
    (writeBytes d o buf)[o + j]? = buf[j]? := by
  have ht : (d.take o).length = o := by
    simp only [List.length_take]
    omega
  have ht2 : (d.take o ++ buf).length = o + buf.length := by
    simp only [List.length_append]
    omega
  unfold writeBytes
  rw [List.getElem?_append, ht2, if_pos (by omega)]
  rw [List.getElem?_append, ht, if_neg (by omega)]
  congr 1
  omega

/-- Below the overwritten range the memory is unchanged. -/
theorem writeBytes_getElem_left (d buf : List Nat) (o i : Nat)
    (hi : i < o) (ho : o + buf.length ≤ d.length) :
    (writeBytes d o buf)[i]? = d[i]? := by
  have ht : (d.take o).length = o := by
    simp only [List.length_take]
    omega
  have ht2 : (d.take o ++ buf).length = o + buf.length := by
    simp only [List.length_append]
    omega
  unfold writeBytes
  rw [List.getElem?_append, ht2, if_pos (by omega)]
  rw [List.getElem?_append, ht, if_pos hi]
  rw [List.getElem?_take, if_pos hi]

/-- Above the overwritten range the memory is unchanged. -/
theorem writeBytes_getElem_right (d buf : List Nat) (o i : Nat)
    (hi : o + buf.length ≤ i) (ho : o + buf.length ≤ d.length) :
    (writeBytes d o buf)[i]? = d[i]? := by
  have ht2 : (d.take o ++ buf).length = o + buf.length := by
    simp only [List.length_append, List.length_take]
    omega
  unfold writeBytes
  rw [List.getElem?_append_right (by rw [ht2]; omega), ht2]
  rw [List.getElem?_drop]
  congr 1
  omega

/-- C10: get_memory is a read-only operation: whether it returns a byte
array or an error, the linear memory afterwards is exactly the linear
memory before. -/
theorem get_memory_read_only (mem : Option (List Nat)) (off len : Int) :
    (get_memory mem off len).2 = mem := by
  cases mem with
  | none => rfl
  | some d =>
    simp only [get_memory]
    split
    · rfl
    · split <;> rfl

/-- C7: when a required export is missing — the export "memory" for
get_memory and set_memory, or the named exported function for execute —
the operation fails with a string-described error: the memory
operations report the missing memory without touching any memory, and
execute reports the missing function without invoking anything. -/
theorem missing_export_fails (off len : Int) (buf : List Nat)
    (ins : WInstance) (name : String) (args : List Int)
    (hf : ins.funcs.lookup name = none) :
    (get_memory none off len).1 = Except.error "missing export: memory" ∧
    (set_memory none off buf).1 = Except.error "missing export: memory" ∧
    (set_memory none off buf).2 = none ∧
    execute ins name args = Except.error ("missing export: " ++ name) := by
  refine ⟨rfl, rfl, rfl, ?_⟩
  simp only [execute, hf]

/-- Witness for missing_export_fails at a concrete instance without
exports. -/
theorem missing_export_fails_witness :
    (get_memory none 0 1).1 = Except.error "missing export: memory" ∧
    (set_memory none 0 [7]).1 = Except.error "missing export: memory" ∧
    (set_memory none 0 [7]).2 = none ∧
    execute ⟨none, []⟩ "f" [] = Except.error ("missing export: " ++ "f") :=
  missing_export_fails 0 1 [7] ⟨none, []⟩ "f" [] rfl

/-- C3: execute fails with the signature-mismatch error
"invalid params length" whenever the number of 64-bit arguments differs
from the parameter arity of the exported function; the result is this
fixed error for every possible function body, so the function is not
invoked. -/
theorem execute_arity_mismatch (ins : WInstance) (name : String)
    (f : WasmFn) (args : List Int)
    (hf : ins.funcs.lookup name = some f)
    (hlen : f.params.length ≠ args.length) :
    execute ins name args = Except.error "invalid params length" := by
  simp only [execute, hf, if_pos hlen]

/-- Witness for execute_arity_mismatch: a unary export called with no
arguments. -/
theorem execute_arity_mismatch_witness :
    execute arityIns "f" [] = Except.error "invalid params length" :=
  execute_arity_mismatch arityIns "f" arityFn [] rfl (by decide)

/-- C8: close on a live handle succeeds and removes the instance from
the process-wide state, so the handle no longer refers to a live
instance. -/
theorem close_drops (st : Nat → Option WInstance) (h : Nat)
    (ins : WInstance) (hl : st h = some ins) :
    (closeIns st h).1 = Except.ok () ∧ (closeIns st h).2 h = none := by
  simp [closeIns, hl]

/-- Witness for close_drops at a one-entry table. -/
theorem close_drops_witness :
    (closeIns (fun k => if k = 1 then some ⟨none, []⟩ else none) 1).1 =
      Except.ok () ∧
    (closeIns (fun k => if k = 1 then some ⟨none, []⟩ else none) 1).2 1 =
      none :=
  close_drops (fun k => if k = 1 then some ⟨none, []⟩ else none) 1
    ⟨none, []⟩ rfl

/-- C9: close on a handle whose instance pointer is null returns
success without changing anything, and closing a handle twice behaves
on the second call exactly like a close of a null handle, so close is
idempotent. -/
theorem close_null_idempotent (st : Nat → Option WInstance) (h : Nat) :
    (st h = none → closeIns st h = (Except.ok (), st)) ∧
    closeIns (closeIns st h).2 h = (Except.ok (), (closeIns st h).2) := by
  constructor
  · intro hnull
    simp [closeIns, hnull]
  · rcases hst : st h with _ | ins
    · simp [closeIns, hst]
    · simp [closeIns, hst]

/-- Witness for close_null_idempotent at the empty table, whose every
pointer is null. -/
theorem close_null_idempotent_witness :
    closeIns (fun _ => (none : Option WInstance)) 0 =
      (Except.ok (), fun _ => (none : Option WInstance)) :=
  (close_null_idempotent (fun _ => none) 0).1 rfl

/-- C1 (bug evidence): with a 10-byte memory, off = 2147483647 and
len = 1 have off + len > 10, so the specified behaviour is the
"memory access overflow" error; instead the wrapped i32 sum is negative,
the guard passes, and the subsequent read panics. -/
theorem get_memory_overflow_bug :
    get_memory (some (List.replicate 10 0)) 2147483647 1 =
      (Except.error "panic: Memory Access Error",
        some (List.replicate 10 0)) := by
  rfl

/-- C4: every invocation of a host function converts the WebAssembly
arguments to 64-bit integers, calls Natives.onHostFunction with the
instance id, the host function id and that vector, and converts the
returned jlong array back to the declared result types; a managed
return value that is not an object yields the runtime error
"unexpected return type". -/
theorem host_call_spec (retTypes : List WasmType)
    (dispatch : Int → Int → List Int → Except String JVal)
    (insId hostId : Int) (args : List Value) (v : List Int)
    (hargs : as_i64_vec args = some v) :
    (∀ rv, dispatch insId hostId v = Except.ok (JVal.object (some rv)) →
      host_call retTypes dispatch insId hostId args =
        convertVals retTypes rv) ∧
    (dispatch insId hostId v = Except.ok JVal.other →
      host_call retTypes dispatch insId hostId args =
        Except.error "unexpected return type") := by
  constructor
  · intro rv hret
    simp only [host_call, hargs, hret]
  · intro hret
    simp only [host_call, hargs, hret]

/-- Witness for host_call_spec: a dispatch returning the array [7] for
a single i32 argument and an i64 result type. -/
theorem host_call_spec_witness :
    host_call [WasmType.I64]
      (fun _ _ _ => Except.ok (JVal.object (some [7]))) 1 2 [Value.I32 3] =
      convertVals [WasmType.I64] [7] :=
  (host_call_spec [WasmType.I64]
      (fun _ _ _ => Except.ok (JVal.object (some [7]))) 1 2 [Value.I32 3]
      [3] rfl).1 [7] rfl

/-- C6: when the argument count matches the arity, execute converts the
64-bit arguments into the native values of the declared parameter
signature, calls the function on exactly those values, and converts the
result values back to 64-bit integers, failing with
"unsupported return type" when some result value has no 64-bit
representation. -/
theorem execute_converts (ins : WInstance) (name : String) (f : WasmFn)
    (args : List Int) (vals results : List Value)
    (hf : ins.funcs.lookup name = some f)
    (hlen : f.params.length = args.length)
    (hconv : convertVals f.params args = Except.ok vals)
    (hbody : f.body vals = Except.ok results) :
    (∀ out, as_i64_vec results = some out →
      execute ins name args = Except.ok out) ∧
    (as_i64_vec results = none →
      execute ins name args = Except.error "unsupported return type") := by
  have hne : ¬ f.params.length ≠ args.length := not_ne_iff.mpr hlen
  constructor
  · intro out hout
    simp only [execute, hf, if_neg hne, hconv, hbody, hout]
  · intro hout
    simp only [execute, hf, if_neg hne, hconv, hbody, hout]

/-- Witness for execute_converts: calling the V128-returning export
yields the unsupported-return-type error. -/
theorem execute_converts_witness :
    execute v128Ins "g" [] = Except.error "unsupported return type" :=
  (execute_converts v128Ins "g" v128Fn [] [] [Value.V128 0]
      rfl rfl rfl rfl).2 rfl

/-- C2 (counterexample): with a 4-byte memory, off = -1 and a one-byte
buffer violate 0 <= off, so the claimed behaviour is the
"memory access overflow" error; instead the wrapped usize sum
(off as usize) + 1 is 0, the guard passes, and the underlying write
fails with a different error string (the memory is still unchanged). -/
theorem set_memory_error_message_cex :
    set_memory (some (List.replicate 4 0)) (-1) [5] =
      (Except.error "Got memory access error: out of bounds",
        some (List.replicate 4 0)) ∧
    (Except.error "Got memory access error: out of bounds" :
        Except String Unit) ≠
      Except.error "memory access overflow" := by
  constructor
  · rfl
  · intro h
    injection h with h2
    exact absurd h2 (by decide)

/-- C2 (amended): for jint offsets, realistic wasm32 memory sizes and
jbyteArray buffers, the write is performed exactly when 0 <= off and
off + length(buf) <= memory size; otherwise set_memory returns a
string-described error — "memory access overflow", or the underlying
memory-access failure when the wrapped 64-bit bounds computation masks
the violation — and the linear memory is left unchanged. -/
theorem set_memory_bounds (d : List Nat) (off : Int) (buf : List Nat)
    (h1 : -2 ^ 31 ≤ off) (h2 : off < 2 ^ 31)
    (h3 : d.length ≤ 2 ^ 32) (h4 : buf.length < 2 ^ 31) :
    ((set_memory (some d) off buf).1 = Except.ok () ↔
      0 ≤ off ∧ off + buf.length ≤ (d.length : Int)) ∧
    (¬ (0 ≤ off ∧ off + buf.length ≤ (d.length : Int)) →
      ((set_memory (some d) off buf).1 =
          Except.error "memory access overflow" ∨
        (set_memory (some d) off buf).1 =
          Except.error "Got memory access error: out of bounds") ∧
      (set_memory (some d) off buf).2 = some d) := by
  rw [set_memory_some]
  by_cases hoff : 0 ≤ off
  · have he : i32toU64 off = off.toNat := by
      simp only [i32toU64]
      omega
    rw [he]
    have hmod : (off.toNat + buf.length) % 2 ^ 64 =
        off.toNat + buf.length := by
      omega
    rw [hmod]
    by_cases hle : off.toNat + buf.length ≤ d.length
    · rw [if_neg (by omega), if_pos hle]
      constructor
      · constructor
        · intro _
          exact ⟨hoff, by omega⟩
        · intro _
          rfl
      · intro hc
        exact absurd ⟨hoff, by omega⟩ hc
    · rw [if_pos (by omega)]
      constructor
      · constructor
        · intro h
          exact Except.noConfusion h
        · rintro ⟨_, hc⟩
          exact absurd hc (by omega)
      · intro _
        exact ⟨Or.inl rfl, rfl⟩
  · have hbig : 2 ^ 64 - 2 ^ 31 ≤ i32toU64 off := by
      simp only [i32toU64]
      omega
    have hw : ¬ i32toU64 off + buf.length ≤ d.length := by omega
    constructor
    · constructor
      · intro h
        by_cases hc : (i32toU64 off + buf.length) % 2 ^ 64 > d.length
        · rw [if_pos hc] at h
          exact Except.noConfusion h
        · rw [if_neg hc, if_neg hw] at h
          exact Except.noConfusion h
      · rintro ⟨h0, _⟩
        exact absurd h0 hoff
    · intro _
      by_cases hc : (i32toU64 off + buf.length) % 2 ^ 64 > d.length
      · rw [if_pos hc]
        exact ⟨Or.inl rfl, rfl⟩
      · rw [if_neg hc, if_neg hw]
        exact ⟨Or.inr rfl, rfl⟩

/-- Witness for set_memory_bounds: an in-range one-byte write into a
two-byte memory succeeds. -/
theorem set_memory_bounds_witness :
    (set_memory (some [0, 0]) 0 [1]).1 = Except.ok () :=
  (set_memory_bounds [0, 0] 0 [1] (by decide) (by decide) (by decide)
      (by decide)).1.mpr ⟨by decide, by decide⟩

/-- C5: a successful set_memory copies the bytes of buf into linear
memory at positions [off, off + length(buf)) and leaves every byte
outside that range unchanged (the hypotheses are the jint range of off,
the jbyteArray length bound and the wasm32 memory size bound). -/
theorem set_memory_copies (d : List Nat) (off : Int) (buf : List Nat)
    (h1 : -2 ^ 31 ≤ off) (h2 : off < 2 ^ 31)
    (h3 : d.length ≤ 2 ^ 32) (h4 : buf.length < 2 ^ 31)
    (hok : (set_memory (some d) off buf).1 = Except.ok ()) :
    ∃ d2, (set_memory (some d) off buf).2 = some d2 ∧
      d2.length = d.length ∧
      (∀ j, j < buf.length → d2[off.toNat + j]? = buf[j]?) ∧
      (∀ i, i < off.toNat ∨ off.toNat + buf.length ≤ i →
        d2[i]? = d[i]?) := by
  have hoff : 0 ≤ off := by
    by_contra hneg
    push_neg at hneg
    have hbig : 2 ^ 64 - 2 ^ 31 ≤ i32toU64 off := by
      simp only [i32toU64]
      omega
    have hw : ¬ i32toU64 off + buf.length ≤ d.length := by omega
    rw [set_memory_some] at hok
    by_cases hc : (i32toU64 off + buf.length) % 2 ^ 64 > d.length
    · rw [if_pos hc] at hok
      exact Except.noConfusion hok
    · rw [if_neg hc, if_neg hw] at hok
      exact Except.noConfusion hok
  have he : i32toU64 off = off.toNat := by
    simp only [i32toU64]
    omega
  have hmod : (off.toNat + buf.length) % 2 ^ 64 =
      off.toNat + buf.length := by
    omega
  rw [set_memory_some, he, hmod] at hok
  have hle : off.toNat + buf.length ≤ d.length := by
    by_cases hc : off.toNat + buf.length > d.length
    · rw [if_pos hc] at hok
      exact Except.noConfusion hok
    · omega
  rw [set_memory_some, he, hmod, if_neg (by omega), if_pos hle]
  refine ⟨writeBytes d off.toNat buf, rfl, writeBytes_length d buf _ hle,
    ?_, ?_⟩
  · intro j hj
    exact writeBytes_getElem_mid d buf _ j hj hle
  · intro i hi
    cases hi with
    | inl hlt => exact writeBytes_getElem_left d buf _ i hlt hle
    | inr hge => exact writeBytes_getElem_right d buf _ i hge hle

/-- Witness for set_memory_copies: writing [9, 9] at offset 1 of a
four-byte memory. -/
theorem set_memory_copies_witness :
    ∃ d2, (set_memory (some [1, 2, 3, 4]) 1 [9, 9]).2 = some d2 ∧
      d2.length = ([1, 2, 3, 4] : List Nat).length ∧
      (∀ j, j < ([9, 9] : List Nat).length →
        d2[(1 : Int).toNat + j]? = ([9, 9] : List Nat)[j]?) ∧
      (∀ i, i < (1 : Int).toNat ∨
          (1 : Int).toNat + ([9, 9] : List Nat).length ≤ i →
        d2[i]? = ([1, 2, 3, 4] : List Nat)[i]?) :=
  set_memory_copies [1, 2, 3, 4] 1 [9, 9] (by decide) (by decide)
    (by decide) (by decide) rfl

end WasmerJni
